import Mathlib

/-!
Shallow embedding of `src/hello.cc`, a Node.js native addon that exports a
single function `hello`.  The C++ body is:

    void Method(const FunctionCallbackInfo<Value>& args) {
      v8::String::Utf8Value nameFromArgs(args[0]->ToString());
      std::string name = std::string(*nameFromArgs);
      std::string response = "hello " + name;
      args.GetReturnValue().Set(Nan::New(response).ToLocalChecked());
    }

    void init(Local<Object> exports) {
      NODE_SET_METHOD(exports, "hello", Method);
    }

Modelling choices:
* A JavaScript string is represented by its list of Unicode code points
  (`List Nat`).
* `v8::String::Utf8Value` yields the NUL-terminated UTF-8 byte encoding of
  the string; we embed it as a genuine UTF-8 encoder (`utf8Encode`).
* `std::string(const char*)` reads bytes up to (excluding) the first NUL
  byte: `List.takeWhile (· != 0)` on the byte list.
* `Nan::New(std::string)` builds a v8 string from UTF-8 bytes; we embed it
  as a UTF-8 decoder (`utf8Decode`).
* `args[0]->ToString()` performs the ECMAScript ToString conversion.  On a
  string it is the identity; `undefined`, `null` and booleans yield their
  fixed spellings; numbers and bigints yield their decimal spelling; an
  object invokes user `toString` code, which either returns some string
  (e.g. `"[object Object]"` for a plain object) or throws, in which case
  no string is produced (`jsToString` returns `none` and the call does
  not complete normally).
* `hello.cc` declares no global or static state and its body writes only
  locals, so the state-passing form of the call (`MethodST`) threads any
  ambient environment through unchanged.
-/

namespace HelloAddon

/-- A JavaScript value as seen at the addon boundary.  A string carries its
code points.  A number carries an integer value (ECMAScript numbers are
doubles; integer values suffice for every claim and keep the decimal
ToString spelling exact).  An object carries the outcome of its
user-defined `toString`: `some` string when it returns one (a plain
object returns `"[object Object]"`), `none` when it throws, so the
ECMAScript ToString conversion produces no string for it. -/
inductive JSValue where
  | str (cps : List Nat)
  | undefined
  | null
  | boolean (b : Bool)
  | number (i : Int)
  | bigint (i : Int)
  | object (ts : Option (List Nat))
deriving DecidableEq, Repr

/-- Code points (= ASCII bytes) of the literal prefix used in
`"hello " + name`. -/
def greeting : List Nat := [104, 101, 108, 108, 111, 32]

/-- Code points of the string `"undefined"`, the ECMAScript ToString image
of `undefined`. -/
def undefinedStr : List Nat := [117, 110, 100, 101, 102, 105, 110, 101, 100]

/-- Code points of the string `"null"`. -/
def nullStr : List Nat := [110, 117, 108, 108]

/-- Code points of the string `"true"`. -/
def trueStr : List Nat := [116, 114, 117, 101]

/-- Code points of the string `"false"`. -/
def falseStr : List Nat := [102, 97, 108, 115, 101]

/-- Decimal digits of a positive number, most significant first, as code
points; the first argument is fuel making the recursion structural
(`fuel ≥ n` is always enough since the value shrinks tenfold each step). -/
def natDigitsAux : Nat → Nat → List Nat
  | 0, _ => []
  | _ + 1, 0 => []
  | fuel + 1, n + 1 => natDigitsAux fuel ((n + 1) / 10) ++ [48 + (n + 1) % 10]

/-- Decimal spelling of a natural number, as code points. -/
def natToString (n : Nat) : List Nat :=
  if n = 0 then [48] else natDigitsAux n n

/-- Decimal spelling of an integer, as code points: the ECMAScript
ToString image of an integer-valued number or a bigint. -/
def intToString : Int → List Nat
  | .ofNat n => natToString n
  | .negSucc m => 45 :: natToString (m + 1)

/-- The ECMAScript ToString conversion performed by `args[0]->ToString()`.
Strings pass through; `undefined`, `null`, booleans, numbers and bigints
convert to their spellings; an object yields whatever its `toString`
returns, or no string at all when that user code throws. -/
def jsToString : JSValue → Option (List Nat)
  | .str s => some s
  | .undefined => some undefinedStr
  | .null => some nullStr
  | .boolean true => some trueStr
  | .boolean false => some falseStr
  | .number i => some (intToString i)
  | .bigint i => some (intToString i)
  | .object ts => ts

/-- UTF-8 encoding of one code point, as byte values. -/
def utf8EncodeChar (c : Nat) : List Nat :=
  if c < 0x80 then [c]
  else if c < 0x800 then [0xC0 + c / 64, 0x80 + c % 64]
  else if c < 0x10000 then [0xE0 + c / 4096, 0x80 + c / 64 % 64, 0x80 + c % 64]
  else [0xF0 + c / 262144, 0x80 + c / 4096 % 64, 0x80 + c / 64 % 64, 0x80 + c % 64]

/-- UTF-8 encoding of a code-point sequence: the byte contents handed out
by `v8::String::Utf8Value`. -/
def utf8Encode : List Nat → List Nat
  | [] => []
  | c :: cs => utf8EncodeChar c ++ utf8Encode cs

/-- One step of UTF-8 decoding.  `utf8DecodeAux n acc bs`: when `n = 0` the
next byte is a lead byte (its high bits select the sequence length);
otherwise `n` continuation bytes are still owed to the partial scalar
value `acc`, and the scalar is emitted once the last one arrives.  An
input that ends mid-sequence contributes nothing further. -/
def utf8DecodeAux : Nat → Nat → List Nat → List Nat
  | _, _, [] => []
  | 0, _, b :: bs =>
    if b < 0x80 then b :: utf8DecodeAux 0 0 bs
    else if b < 0xE0 then utf8DecodeAux 1 (b - 0xC0) bs
    else if b < 0xF0 then utf8DecodeAux 2 (b - 0xE0) bs
    else utf8DecodeAux 3 (b - 0xF0) bs
  | 1, acc, b :: bs => (acc * 64 + (b - 0x80)) :: utf8DecodeAux 0 0 bs
  | n + 2, acc, b :: bs => utf8DecodeAux (n + 1) (acc * 64 + (b - 0x80)) bs
termination_by structural _ _ l => l

/-- UTF-8 decoding of a byte sequence: the code points of the v8 string
built by `Nan::New` from `std::string` bytes. -/
def utf8Decode (bs : List Nat) : List Nat := utf8DecodeAux 0 0 bs

/-- Embedding of `Method` from `src/hello.cc`, applied to the value of
`args[0]`.  `none` means the call did not complete normally (the ToString
conversion threw, so no string reaches the C++ body).  Otherwise the body
runs: the UTF-8 bytes of the converted argument are read through a C
string into `std::string` (stopping at the first NUL byte), prefixed with
`"hello "`, and returned as a new v8 string. -/
def Method (arg : JSValue) : Option JSValue :=
  match jsToString arg with
  | none => none
  | some js =>
    let nameFromArgs := utf8Encode js
    let name := nameFromArgs.takeWhile (· != 0)
    let response := greeting ++ name
    some (.str (utf8Decode response))

/-- The call in state-passing form.  The body of `Method` writes no
non-local state (`hello.cc` declares no globals or statics), so any
ambient environment is threaded through unchanged. -/
def MethodST {σ : Type} (env : σ) (arg : JSValue) : σ × Option JSValue :=
  (env, Method arg)

/-- The call from the caller's standpoint: the argument value is handed
back unchanged next to the result (v8 passes the argument by handle and
`Method` only reads it). -/
def MethodCall (arg : JSValue) : JSValue × Option JSValue :=
  (arg, Method arg)

/-- A call through the exported function with an argument list:
`args[0]` is `undefined` when the caller passes no argument. -/
def callHello (args : List JSValue) : Option JSValue :=
  Method (args.getD 0 .undefined)

/-- Embedding of `NODE_SET_METHOD`: registers a function on the exports
object under a name. -/
def NODE_SET_METHOD (exports : List (String × (JSValue → Option JSValue)))
    (name : String) (f : JSValue → Option JSValue) :
    List (String × (JSValue → Option JSValue)) :=
  exports ++ [(name, f)]

/-- Embedding of `init` from `src/hello.cc`. -/
def init (exports : List (String × (JSValue → Option JSValue))) :
    List (String × (JSValue → Option JSValue)) :=
  NODE_SET_METHOD exports "hello" Method

/-- The exports object after module load: `NODE_MODULE(addon, init)` runs
`init` on the fresh (empty) exports object. -/
def moduleExports : List (String × (JSValue → Option JSValue)) :=
  init []

/- ### Helper lemmas -/

/-- Decoding step on an ASCII byte. -/
theorem utf8DecodeAux_lead1 (b : Nat) (h : b < 0x80) (bs : List Nat) :
    utf8DecodeAux 0 0 (b :: bs) = b :: utf8DecodeAux 0 0 bs := by
  simp [utf8DecodeAux, h]

/-- Decoding step on a two-byte lead byte. -/
theorem utf8DecodeAux_lead2 (b : Nat) (h1 : 0xC0 ≤ b) (h2 : b < 0xE0) (bs : List Nat) :
    utf8DecodeAux 0 0 (b :: bs) = utf8DecodeAux 1 (b - 0xC0) bs := by
  have hn : ¬ b < 0x80 := by omega
  simp [utf8DecodeAux, hn, h2]

/-- Decoding step on a three-byte lead byte. -/
theorem utf8DecodeAux_lead3 (b : Nat) (h1 : 0xE0 ≤ b) (h2 : b < 0xF0) (bs : List Nat) :
    utf8DecodeAux 0 0 (b :: bs) = utf8DecodeAux 2 (b - 0xE0) bs := by
  have hn : ¬ b < 0x80 := by omega
  have hn2 : ¬ b < 0xE0 := by omega
  simp [utf8DecodeAux, hn, hn2, h2]

/-- Decoding step on a four-byte lead byte. -/
theorem utf8DecodeAux_lead4 (b : Nat) (h1 : 0xF0 ≤ b) (bs : List Nat) :
    utf8DecodeAux 0 0 (b :: bs) = utf8DecodeAux 3 (b - 0xF0) bs := by
  have hn : ¬ b < 0x80 := by omega
  have hn2 : ¬ b < 0xE0 := by omega
  have hn3 : ¬ b < 0xF0 := by omega
  simp [utf8DecodeAux, hn, hn2, hn3]

/-- Decoding step on the last continuation byte. -/
theorem utf8DecodeAux_cont1 (acc b : Nat) (bs : List Nat) :
    utf8DecodeAux 1 acc (b :: bs) = (acc * 64 + (b - 0x80)) :: utf8DecodeAux 0 0 bs := by
  simp [utf8DecodeAux]

/-- Decoding step with two continuation bytes owed. -/
theorem utf8DecodeAux_cont2 (acc b : Nat) (bs : List Nat) :
    utf8DecodeAux 2 acc (b :: bs) = utf8DecodeAux 1 (acc * 64 + (b - 0x80)) bs := by
  simp [utf8DecodeAux]

/-- Decoding step with three continuation bytes owed. -/
theorem utf8DecodeAux_cont3 (acc b : Nat) (bs : List Nat) :
    utf8DecodeAux 3 acc (b :: bs) = utf8DecodeAux 2 (acc * 64 + (b - 0x80)) bs := by
  simp [utf8DecodeAux]

/-- Decoding inverts encoding char by char, with any trailing bytes. -/
theorem utf8Decode_encodeChar (c : Nat) (rest : List Nat) :
    utf8Decode (utf8EncodeChar c ++ rest) = c :: utf8Decode rest := by
  unfold utf8Decode utf8EncodeChar
  split_ifs with h1 h2 h3
  · simpa using utf8DecodeAux_lead1 c h1 rest
  · rw [List.cons_append, List.cons_append, List.nil_append,
      utf8DecodeAux_lead2 _ (by omega) (by omega), utf8DecodeAux_cont1]
    simp only [List.cons.injEq]
    exact ⟨by omega, trivial⟩
  · rw [List.cons_append, List.cons_append, List.cons_append, List.nil_append,
      utf8DecodeAux_lead3 _ (by omega) (by omega), utf8DecodeAux_cont2, utf8DecodeAux_cont1]
    simp only [List.cons.injEq]
    exact ⟨by omega, trivial⟩
  · rw [List.cons_append, List.cons_append, List.cons_append, List.cons_append,
      List.nil_append, utf8DecodeAux_lead4 _ (by omega), utf8DecodeAux_cont3,
      utf8DecodeAux_cont2, utf8DecodeAux_cont1]
    simp only [List.cons.injEq]
    exact ⟨by omega, trivial⟩

/-- Decoding inverts encoding, with any trailing bytes. -/
theorem utf8Decode_encode_append (s rest : List Nat) :
    utf8Decode (utf8Encode s ++ rest) = s ++ utf8Decode rest := by
  induction s with
  | nil => simp [utf8Encode]
  | cons c cs ih =>
    simp only [utf8Encode, List.append_assoc, utf8Decode_encodeChar, ih, List.cons_append]

/-- Decoding inverts encoding. -/
theorem utf8Decode_encode (s : List Nat) : utf8Decode (utf8Encode s) = s := by
  have h := utf8Decode_encode_append s []
  simpa [utf8Decode, utf8DecodeAux] using h

/-- Every byte of the encoding of a nonzero code point is nonzero. -/
theorem utf8EncodeChar_ne_zero (c : Nat) (hc : c ≠ 0) :
    ∀ b ∈ utf8EncodeChar c, (b != 0) = true := by
  intro b hb
  unfold utf8EncodeChar at hb
  split_ifs at hb <;> simp_all <;> omega

/-- A `takeWhile` passes a prefix whose elements all satisfy the predicate. -/
theorem takeWhile_append_of_all {α : Type} (p : α → Bool) (l₁ l₂ : List α)
    (h : ∀ a ∈ l₁, p a = true) :
    (l₁ ++ l₂).takeWhile p = l₁ ++ l₂.takeWhile p := by
  induction l₁ with
  | nil => simp
  | cons a l ih =>
    have ha : p a = true := h a (List.mem_cons_self a l)
    simp only [List.cons_append, List.takeWhile_cons, ha, if_pos]
    rw [ih fun b hb => h b (List.mem_cons_of_mem a hb)]

/-- A `takeWhile` over a list all of whose elements satisfy the predicate
is the list itself. -/
theorem takeWhile_eq_self_of_all {α : Type} (p : α → Bool) (l : List α)
    (h : ∀ a ∈ l, p a = true) : l.takeWhile p = l := by
  induction l with
  | nil => rfl
  | cons a l ih =>
    have ha : p a = true := h a (List.mem_cons_self a l)
    simp only [List.takeWhile_cons, ha, if_pos]
    rw [ih fun b hb => h b (List.mem_cons_of_mem a hb)]

/-- Truncation of the UTF-8 bytes at the first NUL byte encodes exactly the
code points before the first NUL character: a NUL byte occurs only as the
(one-byte) encoding of the code point 0. -/
theorem takeWhile_utf8Encode (s : List Nat) :
    (utf8Encode s).takeWhile (· != 0) = utf8Encode (s.takeWhile (· != 0)) := by
  induction s with
  | nil => rfl
  | cons c cs ih =>
    by_cases hc : c = 0
    · subst hc
      simp [utf8Encode, utf8EncodeChar, List.takeWhile_cons]
    · have hcb : (c != 0) = true := by simpa using hc
      simp only [utf8Encode, List.takeWhile_cons, hcb, if_pos,
        takeWhile_append_of_all _ _ _ (utf8EncodeChar_ne_zero c hc), ih]

/-- The encoding of the ASCII prefix is itself. -/
theorem utf8Encode_greeting : utf8Encode greeting = greeting := by decide

/-- Encoding distributes over concatenation of code-point sequences. -/
theorem utf8Encode_append (a b : List Nat) :
    utf8Encode (a ++ b) = utf8Encode a ++ utf8Encode b := by
  induction a with
  | nil => rfl
  | cons c cs ih => simp [utf8Encode, ih]

/-- Characterisation of `Method` on any argument whose ToString conversion
yields the string `js`: the result is the string obtained by appending to
`"hello "` the code points of `js` that precede its first NUL character. -/
theorem Method_coerce (arg : JSValue) (js : List Nat) (h : jsToString arg = some js) :
    Method arg = some (.str (greeting ++ js.takeWhile (· != 0))) := by
  simp only [Method, h, takeWhile_utf8Encode]
  rw [show greeting ++ utf8Encode (js.takeWhile (· != 0)) =
        utf8Encode (greeting ++ js.takeWhile (· != 0)) by
      rw [utf8Encode_append, utf8Encode_greeting],
    utf8Decode_encode]

/-- Characterisation of `Method` on a string argument, a special case of
the previous lemma: ToString leaves a string unchanged. -/
theorem Method_str (s : List Nat) :
    Method (.str s) = some (.str (greeting ++ s.takeWhile (· != 0))) :=
  Method_coerce (.str s) s rfl

/- ### Claims -/

/-- Claim C1 (counterexample): the claim "for every string `s` the call
returns `"hello " + s`" fails at the one-character string consisting of
the NUL character: the conversion through a C string truncates it away,
so the call returns `"hello "` rather than `"hello \u0000"`. -/
theorem hello_full_concat_cex :
    Method (JSValue.str [0]) ≠ some (JSValue.str (greeting ++ [0])) := by
  decide

/-- Claim C1 (amended): for every string `s` that contains no NUL
character, calling the exported greeting function with `s` returns the
string `"hello " + s` (the literal prefix `"hello "` concatenated with the
input). -/
theorem hello_full_concat (s : List Nat) (h : ∀ c ∈ s, c ≠ 0) :
    Method (JSValue.str s) = some (JSValue.str (greeting ++ s)) := by
  rw [Method_str, takeWhile_eq_self_of_all _ s fun a ha => by simpa using h a ha]

/-- Witness for the amended claim C1 at the input `"a"`. -/
theorem hello_full_concat_witness :
    (∀ c ∈ [97], c ≠ 0) ∧
      Method (JSValue.str [97]) = some (JSValue.str (greeting ++ [97])) :=
  ⟨by decide, hello_full_concat [97] (by decide)⟩

/-- Claim C2: a call with any string argument completes normally, with no
error; only absent or non-string-convertible arguments fall outside the
guarantee. -/
theorem hello_string_no_error (s : List Nat) :
    (Method (JSValue.str s)).isSome = true := by
  rw [Method_str]
  rfl

/-- Claim C3: at module load time the greeting function is registered on
the exports object under the fixed name `"hello"`, and nothing else is
exported. -/
theorem exports_exactly_hello : moduleExports = [("hello", Method)] := rfl

/-- Claim C4: for an input string containing the NUL character, the call
returns `"hello "` followed by only the portion of the input preceding
the first NUL: the `std::string` built from the C-style pointer stops at
the first NUL byte. -/
theorem hello_truncates_at_first_nul (s : List Nat) (_h : (0 : Nat) ∈ s) :
    Method (JSValue.str s) = some (JSValue.str (greeting ++ s.takeWhile (· != 0))) :=
  Method_str s

/-- Witness for claim C4 at the input `"w\u0000z"`, whose greeting drops
everything from the NUL on. -/
theorem hello_truncates_at_first_nul_witness :
    ((0 : Nat) ∈ [119, 0, 122]) ∧
      Method (JSValue.str [119, 0, 122]) =
        some (JSValue.str (greeting ++ [119, 0, 122].takeWhile (· != 0))) :=
  ⟨by decide, hello_truncates_at_first_nul [119, 0, 122] (by decide)⟩

/-- Claim C5: the greeting function is pure and stateless: a call leaves
any ambient environment unchanged, and its result depends only on the
argument, so two calls with the same input return the same output. -/
theorem hello_pure_stateless (σ : Type) (env : σ) (arg : JSValue) :
    (MethodST env arg).1 = env ∧
      ∀ env2 : σ, (MethodST env2 arg).2 = (MethodST env arg).2 :=
  ⟨rfl, fun _ => rfl⟩

/-- Claim C6: calling with the empty string returns exactly `"hello "`,
prefix and trailing space alone. -/
theorem hello_empty_string :
    Method (JSValue.str []) = some (JSValue.str greeting) := by
  decide

/-- Claim C7: calling with `"world"` returns `"hello world"`. -/
theorem hello_world :
    Method (JSValue.str [119, 111, 114, 108, 100]) =
      some (JSValue.str [104, 101, 108, 108, 111, 32, 119, 111, 114, 108, 100]) := by
  decide

/-- Claim C8: for every string input the returned value is itself a
string. -/
theorem hello_returns_string (s : List Nat) :
    ∃ t : List Nat, Method (JSValue.str s) = some (JSValue.str t) :=
  ⟨greeting ++ s.takeWhile (· != 0), Method_str s⟩

/-- Claim C9: the call hands the caller's argument back unchanged and the
result is a new string: its value even differs from the argument's value,
since it gains the 6-character prefix while the rest cannot grow. -/
theorem hello_preserves_argument (s : List Nat) :
    (MethodCall (JSValue.str s)).1 = JSValue.str s ∧
      ∃ t : List Nat, (MethodCall (JSValue.str s)).2 = some (JSValue.str t) ∧ t ≠ s := by
  refine ⟨rfl, greeting ++ s.takeWhile (· != 0), Method_str s, fun hEq => ?_⟩
  have hall : ∀ a ∈ s, (a != 0) = true := by
    intro a ha
    have ha2 : a ∈ greeting ++ s.takeWhile (· != 0) := by rw [hEq]; exact ha
    rcases List.mem_append.mp ha2 with hg | ht
    · simp only [greeting, List.mem_cons, List.not_mem_nil, or_false] at hg
      simp only [bne_iff_ne, ne_eq]
      omega
    · exact List.mem_takeWhile_imp (p := fun x => x != 0) ht
  rw [takeWhile_eq_self_of_all _ s hall] at hEq
  have hlen := congrArg List.length hEq
  simp only [List.length_append, greeting, List.length_cons, List.length_nil] at hlen
  omega

/-- Claim C10 (counterexample): the claim "no non-string argument raises
an error" fails at an object whose `toString` throws: the ToString
conversion produces no string, so the call does not complete with a
value. -/
theorem hello_throwing_tostring_cex :
    ¬ ∃ v : JSValue, Method (JSValue.object none) = some v := by
  rintro ⟨v, hv⟩
  exact Option.noConfusion hv

/-- Claim C10 (amended): a call with a missing argument, or with any
non-string argument whose ToString conversion does not throw, raises no
error: the argument is coerced with the runtime's ToString conversion and
the result is `"hello "` plus that coercion (truncated at its first NUL
character, as for direct string inputs); in particular a call with no
argument returns `"hello undefined"`.  Only an argument whose string
conversion itself throws is outside this guarantee. -/
theorem hello_coerces_non_throwing (arg : JSValue) (js : List Nat)
    (h : jsToString arg = some js) :
    Method arg = some (JSValue.str (greeting ++ js.takeWhile (· != 0))) ∧
      callHello [] = some (JSValue.str (greeting ++ undefinedStr)) :=
  ⟨Method_coerce arg js h, by decide⟩

/-- Witness for the amended claim C10 at the number `42`, whose ToString
image is `"42"`, so the call returns `"hello 42"`. -/
theorem hello_coerces_non_throwing_witness :
    jsToString (JSValue.number 42) = some [52, 50] ∧
      (Method (JSValue.number 42) =
          some (JSValue.str (greeting ++ [52, 50].takeWhile (· != 0))) ∧
        callHello [] = some (JSValue.str (greeting ++ undefinedStr))) :=
  ⟨by decide, hello_coerces_non_throwing (JSValue.number 42) [52, 50] (by decide)⟩

end HelloAddon
